import Mathlib

/-
  Verification of the probabilistic 3D occupancy octomap
  (`src/octomap/occupancy.py`, classes `OccupancyOctoMap` and
  `OccupancyOctoNode`).

  Shallow embedding conventions:
  * Python floats used as coordinates (points, origins, widths, center,
    resolution) are modelled as rationals `ℚ`; probabilities and log-odds,
    which flow through `math.log` / `math.pow(e, ·)`, are modelled as reals.
  * Python exceptions are modelled by the error type `PyErr`.  Mutating
    methods return the post-call state together with `Option PyErr`
    (mutations performed before a raise are retained in the returned state,
    matching Python's in-place semantics); pure methods that can raise
    return `Except PyErr _`.
  * `OccupancyOctoMap.update` and `OccupancyOctoMap.probability` pass the
    *bound method* `self.origin` (the class defines `origin` as a plain
    method, not a `@property`) to the node instead of the tuple
    `self.origin()`.  The argument type `OriginArg` records whether a
    tuple or that bound method was passed; subscripting the bound method
    (`origin[0]` inside `OccupancyOctoNode.contains` / `origin`) raises
    `TypeError` exactly as Python does.
  * `math.log x` raises `ValueError` for `x ≤ 0` and `a / 0.0` raises
    `ZeroDivisionError`; both are modelled explicitly before the
    real-valued operation is applied.
-/

namespace Octomap

/-- The Python exceptions that the source can raise. -/
inductive PyErr where
  | valueError
  | typeError
  | zeroDivisionError
  | indexError
deriving DecidableEq

/-- A 3-component point (x, y, z), the shape all node-level code works on. -/
structure Point where
  x : ℚ
  y : ℚ
  z : ℚ
deriving DecidableEq

/-- The `origin` argument received by node methods: either a genuine tuple,
or the bound method `self.origin` that `OccupancyOctoMap.update` /
`OccupancyOctoMap.probability` actually pass (subscripting it raises
`TypeError`). -/
inductive OriginArg where
  | tup (o : Point)
  | method
deriving DecidableEq

/-- `OccupancyOctoNode`: `_children is None` (a leaf) or a tuple of exactly
8 child nodes; `_log_odds` is kept by both shapes. -/
inductive OccupancyOctoNode where
  | leaf (log_odds : ℝ)
  | internal (log_odds : ℝ) (c0 c1 c2 c3 c4 c5 c6 c7 : OccupancyOctoNode)

namespace OccupancyOctoNode

/-- The `_log_odds` field. -/
def log_odds : OccupancyOctoNode → ℝ
  | .leaf lo => lo
  | .internal lo _ _ _ _ _ _ _ _ => lo

/-- `is_leaf`: whether `_children is None`. -/
def is_leaf : OccupancyOctoNode → Bool
  | .leaf _ => true
  | .internal _ _ _ _ _ _ _ _ _ => false

/-- The `probability` property: `odds = e ** log_odds; odds / (odds + 1)`. -/
noncomputable def probability (n : OccupancyOctoNode) : ℝ :=
  Real.exp n.log_odds / (Real.exp n.log_odds + 1)

/-- `OccupancyOctoNode.__init__`: `_log_odds = math.log(prior_prob / (1 - prior_prob))`,
with Python's `ZeroDivisionError` for `prior_prob = 1` and `math.log`'s
`ValueError` (math domain error) for a non-positive quotient. -/
noncomputable def init (prior_prob : ℝ) : Except PyErr OccupancyOctoNode :=
  if 1 - prior_prob = 0 then .error .zeroDivisionError
  else if prior_prob / (1 - prior_prob) ≤ 0 then .error .valueError
  else .ok (.leaf (Real.log (prior_prob / (1 - prior_prob))))

/-- `_split`: no-op on an internal node; otherwise builds the 8-tuple of
children, each `OccupancyOctoNode(self.probability)`.  If the child
constructor raised, `_children` would stay `None` (the raise happens while
building the tuple), hence the error case returns the unchanged leaf. -/
noncomputable def split (n : OccupancyOctoNode) : OccupancyOctoNode × Option PyErr :=
  match n with
  | .leaf lo =>
    match init (probability (.leaf lo)) with
    | .error e => (.leaf lo, some e)
    | .ok c => (.internal lo c c c c c c c c, none)
  | .internal lo c0 c1 c2 c3 c4 c5 c6 c7 =>
    (.internal lo c0 c1 c2 c3 c4 c5 c6 c7, none)

/-- `_update_probability`: `_log_odds += math.log(probability / (1 - probability))`,
with the same Python failure modes as `init`. -/
noncomputable def update_probability (n : OccupancyOctoNode) (probability : ℝ) :
    OccupancyOctoNode × Option PyErr :=
  if 1 - probability = 0 then (n, some .zeroDivisionError)
  else if probability / (1 - probability) ≤ 0 then (n, some .valueError)
  else
    match n with
    | .leaf lo => (.leaf (lo + Real.log (probability / (1 - probability))), none)
    | .internal lo c0 c1 c2 c3 c4 c5 c6 c7 =>
      (.internal (lo + Real.log (probability / (1 - probability))) c0 c1 c2 c3 c4 c5 c6 c7,
        none)

/-- `contains` on tuple arguments: the axis-wise half-open test
`origin[i] <= point[i] < origin[i] + width`. -/
def contains (point origin : Point) (width : ℚ) : Bool :=
  decide (origin.x ≤ point.x ∧ point.x < origin.x + width) &&
  decide (origin.y ≤ point.y ∧ point.y < origin.y + width) &&
  decide (origin.z ≤ point.z ∧ point.z < origin.z + width)

/-- `contains` as called with a possibly-non-tuple `origin` argument:
`origin[0]` on the bound method raises `TypeError`. -/
def containsArg (point : Point) (origin : OriginArg) (width : ℚ) : Except PyErr Bool :=
  match origin with
  | .method => .error .typeError
  | .tup o => .ok (contains point o width)

/-- The octant bits computed by `index` once containment has been checked:
`(1 if point[0] >= origin[0] + width/2 else 0) + (2 if ... ) + (4 if ...)`. -/
def indexBits (point origin : Point) (width : ℚ) : ℕ :=
  (if origin.x + width / 2 ≤ point.x then 1 else 0) +
  (if origin.y + width / 2 ≤ point.y then 2 else 0) +
  (if origin.z + width / 2 ≤ point.z then 4 else 0)

/-- `index`: raises `ValueError` if `contains` is false (and `TypeError`
first if the `origin` argument is the bound method, since `contains`
subscripts it). -/
def index (point : Point) (origin : OriginArg) (width : ℚ) : Except PyErr ℕ :=
  match origin with
  | .method => .error .typeError
  | .tup o =>
    if contains point o width then .ok (indexBits point o width)
    else .error .valueError

/-- `origin` (child origin) on tuple arguments: shift by `width/2` along
each axis whose bit is set in `index` (Python truthiness of `index & k`). -/
def origin (index : ℕ) (origin : Point) (width : ℚ) : Point :=
  ⟨origin.x + (if index &&& 1 ≠ 0 then width / 2 else 0),
   origin.y + (if index &&& 2 ≠ 0 then width / 2 else 0),
   origin.z + (if index &&& 4 ≠ 0 then width / 2 else 0)⟩

/-- `origin` (child origin) as called with a possibly-non-tuple `origin`:
subscripting the bound method raises `TypeError`. -/
def originArg (index : ℕ) (o : OriginArg) (width : ℚ) : Except PyErr Point :=
  match o with
  | .method => .error .typeError
  | .tup o => .ok (origin index o width)

/-- `update`: at `max_depth = 0` fuse via `_update_probability`; otherwise
split a leaf, compute the child index (which checks containment and may
raise), and recurse into that child with the child origin, half width and
`max_depth - 1`.  Mutations performed before a raise (notably the split)
are kept in the returned node.  Subscripting `_children` while it is
`None` raises `TypeError`; a child index outside `0..7` would raise
`IndexError` (both unreachable in well-formed runs). -/
noncomputable def update (n : OccupancyOctoNode) (point : Point) (probability : ℝ)
    (orig : OriginArg) (width : ℚ) (max_depth : ℕ) : OccupancyOctoNode × Option PyErr :=
  if _hd : max_depth = 0 then
    update_probability n probability
  else
    match (if n.is_leaf then n.split else (n, none)) with
    | (n1, some e) => (n1, some e)
    | (n1, none) =>
      match index point orig width with
      | .error e => (n1, some e)
      | .ok child_index =>
        match originArg child_index orig width with
        | .error e => (n1, some e)
        | .ok o =>
          match n1 with
          | .leaf lo => (.leaf lo, some .typeError)
          | .internal lo c0 c1 c2 c3 c4 c5 c6 c7 =>
            match child_index with
            | 0 =>
              let r := update c0 point probability (.tup o) (width / 2) (max_depth - 1)
              (.internal lo r.1 c1 c2 c3 c4 c5 c6 c7, r.2)
            | 1 =>
              let r := update c1 point probability (.tup o) (width / 2) (max_depth - 1)
              (.internal lo c0 r.1 c2 c3 c4 c5 c6 c7, r.2)
            | 2 =>
              let r := update c2 point probability (.tup o) (width / 2) (max_depth - 1)
              (.internal lo c0 c1 r.1 c3 c4 c5 c6 c7, r.2)
            | 3 =>
              let r := update c3 point probability (.tup o) (width / 2) (max_depth - 1)
              (.internal lo c0 c1 c2 r.1 c4 c5 c6 c7, r.2)
            | 4 =>
              let r := update c4 point probability (.tup o) (width / 2) (max_depth - 1)
              (.internal lo c0 c1 c2 c3 r.1 c5 c6 c7, r.2)
            | 5 =>
              let r := update c5 point probability (.tup o) (width / 2) (max_depth - 1)
              (.internal lo c0 c1 c2 c3 c4 r.1 c6 c7, r.2)
            | 6 =>
              let r := update c6 point probability (.tup o) (width / 2) (max_depth - 1)
              (.internal lo c0 c1 c2 c3 c4 c5 r.1 c7, r.2)
            | 7 =>
              let r := update c7 point probability (.tup o) (width / 2) (max_depth - 1)
              (.internal lo c0 c1 c2 c3 c4 c5 c6 r.1, r.2)
            | _ + 8 =>
              (.internal lo c0 c1 c2 c3 c4 c5 c6 c7, some .indexError)
termination_by max_depth
decreasing_by all_goals omega

/-- `probability_at`: a leaf returns its `probability`; an internal node
recurses into the child selected by `index` with the child origin and half
width. -/
noncomputable def probability_at : OccupancyOctoNode → Point → OriginArg → ℚ →
    Except PyErr ℝ
  | .leaf lo, _, _, _ => .ok (probability (.leaf lo))
  | .internal _ c0 c1 c2 c3 c4 c5 c6 c7, point, orig, width =>
    match index point orig width with
    | .error e => .error e
    | .ok child_index =>
      match originArg child_index orig width with
      | .error e => .error e
      | .ok o =>
        match child_index with
        | 0 => probability_at c0 point (.tup o) (width / 2)
        | 1 => probability_at c1 point (.tup o) (width / 2)
        | 2 => probability_at c2 point (.tup o) (width / 2)
        | 3 => probability_at c3 point (.tup o) (width / 2)
        | 4 => probability_at c4 point (.tup o) (width / 2)
        | 5 => probability_at c5 point (.tup o) (width / 2)
        | 6 => probability_at c6 point (.tup o) (width / 2)
        | 7 => probability_at c7 point (.tup o) (width / 2)
        | _ + 8 => .error .indexError

end OccupancyOctoNode

/-- `OccupancyOctoMap`: center, resolution, max depth and the owned root. -/
structure OccupancyOctoMap where
  center : Point
  resolution : ℚ
  max_depth : ℕ
  root : OccupancyOctoNode

namespace OccupancyOctoMap

/-- `OccupancyOctoMap.__init__`: stores the geometry and constructs the
root node from `prior_prob`. -/
noncomputable def init (center : Point) (resolution : ℚ) (max_depth : ℕ)
    (prior_prob : ℝ) : Except PyErr OccupancyOctoMap :=
  match OccupancyOctoNode.init prior_prob with
  | .error e => .error e
  | .ok r => .ok (OccupancyOctoMap.mk center resolution max_depth r)

/-- The `radius` property: `math.pow(resolution, max_depth - 1)` (integer
subtraction before the float power, hence the `ℤ` exponent). -/
def radius (m : OccupancyOctoMap) : ℚ := m.resolution ^ ((m.max_depth : ℤ) - 1)

/-- The `width` property: `math.pow(resolution, max_depth)`. -/
def width (m : OccupancyOctoMap) : ℚ := m.resolution ^ (m.max_depth : ℤ)

/-- The `origin` method (never actually invoked by `update`/`probability`,
which pass the bound method instead of its result). -/
def origin (m : OccupancyOctoMap) : Point :=
  ⟨m.center.x - m.radius, m.center.y - m.radius, m.center.z - m.radius⟩

/-- The bounds test of `contains` once the point is known to have three
components: `center[i] - radius <= point[i] < center[i] + radius`. -/
def containsP (m : OccupancyOctoMap) (p : Point) : Bool :=
  decide (m.center.x - m.radius ≤ p.x ∧ p.x < m.center.x + m.radius) &&
  decide (m.center.y - m.radius ≤ p.y ∧ p.y < m.center.y + m.radius) &&
  decide (m.center.z - m.radius ≤ p.z ∧ p.z < m.center.z + m.radius)

/-- `contains`: `ValueError` unless the point has exactly 3 components,
otherwise the half-open cube test. -/
def contains (m : OccupancyOctoMap) (point : List ℚ) : Except PyErr Bool :=
  match point with
  | [x, y, z] => .ok (m.containsP ⟨x, y, z⟩)
  | _ => .error .valueError

/-- `update`: length check, then the strict `0 < probability < 1` check,
then delegation to the root with the *bound method* `self.origin` (not the
tuple `self.origin()`), `self.width` and `self._max_depth`. -/
noncomputable def update (m : OccupancyOctoMap) (point : List ℚ) (probability : ℝ) :
    OccupancyOctoMap × Option PyErr :=
  match point with
  | [x, y, z] =>
    if 0 < probability ∧ probability < 1 then
      match OccupancyOctoNode.update m.root ⟨x, y, z⟩ probability .method m.width
          m.max_depth with
      | (r, e) => (OccupancyOctoMap.mk m.center m.resolution m.max_depth r, e)
    else (m, some .valueError)
  | _ => (m, some .valueError)

/-- `probability`: `ValueError` if `contains` fails or is false, otherwise
delegation to the root's `probability_at` with the *bound method*
`self.origin` and `self.width`. -/
noncomputable def probability (m : OccupancyOctoMap) (point : List ℚ) : Except PyErr ℝ :=
  match point with
  | [x, y, z] =>
    if m.containsP ⟨x, y, z⟩ then
      OccupancyOctoNode.probability_at m.root ⟨x, y, z⟩ .method m.width
    else .error .valueError
  | _ => .error .valueError

end OccupancyOctoMap

/-- The logistic sigmoid `e^x / (e^x + 1)`, the spec's probability of a
log-odds value. -/
noncomputable def sigmoid (x : ℝ) : ℝ := Real.exp x / (Real.exp x + 1)

/-- The log-odds `ln (p / (1 - p))` of a probability, the spec's `logit`. -/
noncomputable def logit (p : ℝ) : ℝ := Real.log (p / (1 - p))

/-! ### Basic facts about the probability representation -/

lemma sigmoid_pos (x : ℝ) : 0 < sigmoid x :=
  div_pos (Real.exp_pos x) (by positivity)

lemma sigmoid_lt_one (x : ℝ) : sigmoid x < 1 := by
  rw [sigmoid, div_lt_one (by positivity)]
  linarith [Real.exp_pos x]

lemma probability_eq_sigmoid (n : OccupancyOctoNode) :
    n.probability = sigmoid n.log_odds := rfl

lemma sigmoid_logit {p : ℝ} (h0 : 0 < p) (h1 : p < 1) : sigmoid (logit p) = p := by
  have h1p : (0 : ℝ) < 1 - p := by linarith
  have hq : 0 < p / (1 - p) := div_pos h0 h1p
  rw [sigmoid, logit, Real.exp_log hq]
  field_simp

lemma node_init_ok {p : ℝ} (h0 : 0 < p) (h1 : p < 1) :
    OccupancyOctoNode.init p = .ok (.leaf (logit p)) := by
  have h1p : (0 : ℝ) < 1 - p := by linarith
  rw [OccupancyOctoNode.init, if_neg (ne_of_gt h1p), if_neg (not_le.2 (div_pos h0 h1p))]
  rfl

lemma split_leaf (lo : ℝ) :
    OccupancyOctoNode.split (.leaf lo) =
      (.internal lo (.leaf (logit (sigmoid lo))) (.leaf (logit (sigmoid lo)))
        (.leaf (logit (sigmoid lo))) (.leaf (logit (sigmoid lo)))
        (.leaf (logit (sigmoid lo))) (.leaf (logit (sigmoid lo)))
        (.leaf (logit (sigmoid lo))) (.leaf (logit (sigmoid lo))), none) := by
  have h : OccupancyOctoNode.probability (.leaf lo) = sigmoid lo := rfl
  rw [OccupancyOctoNode.split, h, node_init_ok (sigmoid_pos lo) (sigmoid_lt_one lo)]

lemma split_snd (n : OccupancyOctoNode) : (OccupancyOctoNode.split n).2 = none := by
  cases n with
  | leaf lo => rw [split_leaf]
  | internal lo c0 c1 c2 c3 c4 c5 c6 c7 => rfl

lemma update_probability_leaf {p : ℝ} (h0 : 0 < p) (h1 : p < 1) (lo : ℝ) :
    OccupancyOctoNode.update_probability (.leaf lo) p = (.leaf (lo + logit p), none) := by
  have h1p : (0 : ℝ) < 1 - p := by linarith
  rw [OccupancyOctoNode.update_probability, if_neg (ne_of_gt h1p),
    if_neg (not_le.2 (div_pos h0 h1p))]
  rfl

lemma update_probability_internal {p : ℝ} (h0 : 0 < p) (h1 : p < 1)
    (lo : ℝ) (c0 c1 c2 c3 c4 c5 c6 c7 : OccupancyOctoNode) :
    OccupancyOctoNode.update_probability (.internal lo c0 c1 c2 c3 c4 c5 c6 c7) p =
      (.internal (lo + logit p) c0 c1 c2 c3 c4 c5 c6 c7, none) := by
  have h1p : (0 : ℝ) < 1 - p := by linarith
  rw [OccupancyOctoNode.update_probability, if_neg (ne_of_gt h1p),
    if_neg (not_le.2 (div_pos h0 h1p))]
  rfl

lemma update_probability_snd {p : ℝ} (h0 : 0 < p) (h1 : p < 1) (n : OccupancyOctoNode) :
    (n.update_probability p).2 = none := by
  cases n with
  | leaf lo => rw [update_probability_leaf h0 h1]
  | internal lo c0 c1 c2 c3 c4 c5 c6 c7 => rw [update_probability_internal h0 h1]

lemma update_probability_log_odds {p : ℝ} (h0 : 0 < p) (h1 : p < 1)
    (n : OccupancyOctoNode) :
    (n.update_probability p).1.log_odds = n.log_odds + logit p := by
  cases n with
  | leaf lo => rw [update_probability_leaf h0 h1]; rfl
  | internal lo c0 c1 c2 c3 c4 c5 c6 c7 => rw [update_probability_internal h0 h1]; rfl

lemma update_probability_is_leaf {p : ℝ} (h0 : 0 < p) (h1 : p < 1)
    (n : OccupancyOctoNode) :
    (n.update_probability p).1.is_leaf = n.is_leaf := by
  cases n with
  | leaf lo => rw [update_probability_leaf h0 h1]; rfl
  | internal lo c0 c1 c2 c3 c4 c5 c6 c7 => rw [update_probability_internal h0 h1]; rfl

lemma update_zero (n : OccupancyOctoNode) (pt : Point) (p : ℝ) (orig : OriginArg)
    (w : ℚ) : n.update pt p orig w 0 = n.update_probability p := by
  rw [OccupancyOctoNode.update, dif_pos rfl]

lemma update_method_succ (n : OccupancyOctoNode) (pt : Point) (p : ℝ) (w : ℚ) (d : ℕ) :
    n.update pt p .method w (d + 1) =
      ((if n.is_leaf then n.split else (n, none)).1, some PyErr.typeError) := by
  have hs : (if n.is_leaf then n.split else (n, none)).2 = none := by
    cases hb : n.is_leaf
    · simp
    · simp [split_snd]
  rcases hp : (if n.is_leaf then n.split else (n, none)) with ⟨n1, e⟩
  have he : e = none := by rw [hp] at hs; exact hs
  subst he
  rw [OccupancyOctoNode.update, dif_neg (Nat.succ_ne_zero d), hp]
  rfl

/-! ### Octant geometry -/

lemma indexBits_lt (p O : Point) (W : ℚ) : OccupancyOctoNode.indexBits p O W < 8 := by
  rw [OccupancyOctoNode.indexBits]
  split_ifs <;> norm_num

set_option maxHeartbeats 2000000 in
lemma region_iff (O p : Point) (W : ℚ) (hW : 0 < W) (i : ℕ) (hi : i < 8) :
    OccupancyOctoNode.contains p (OccupancyOctoNode.origin i O W) (W / 2) = true ↔
      (OccupancyOctoNode.contains p O W = true ∧
        OccupancyOctoNode.indexBits p O W = i) := by
  interval_cases i <;>
    · simp only [OccupancyOctoNode.contains, OccupancyOctoNode.origin,
        OccupancyOctoNode.indexBits, Bool.and_eq_true, decide_eq_true_eq,
        show ((0 : ℕ) &&& 1) = 0 from rfl, show ((0 : ℕ) &&& 2) = 0 from rfl,
        show ((0 : ℕ) &&& 4) = 0 from rfl,
        show ((1 : ℕ) &&& 1) = 1 from rfl, show ((1 : ℕ) &&& 2) = 0 from rfl,
        show ((1 : ℕ) &&& 4) = 0 from rfl,
        show ((2 : ℕ) &&& 1) = 0 from rfl, show ((2 : ℕ) &&& 2) = 2 from rfl,
        show ((2 : ℕ) &&& 4) = 0 from rfl,
        show ((3 : ℕ) &&& 1) = 1 from rfl, show ((3 : ℕ) &&& 2) = 2 from rfl,
        show ((3 : ℕ) &&& 4) = 0 from rfl,
        show ((4 : ℕ) &&& 1) = 0 from rfl, show ((4 : ℕ) &&& 2) = 0 from rfl,
        show ((4 : ℕ) &&& 4) = 4 from rfl,
        show ((5 : ℕ) &&& 1) = 1 from rfl, show ((5 : ℕ) &&& 2) = 0 from rfl,
        show ((5 : ℕ) &&& 4) = 4 from rfl,
        show ((6 : ℕ) &&& 1) = 0 from rfl, show ((6 : ℕ) &&& 2) = 2 from rfl,
        show ((6 : ℕ) &&& 4) = 4 from rfl,
        show ((7 : ℕ) &&& 1) = 1 from rfl, show ((7 : ℕ) &&& 2) = 2 from rfl,
        show ((7 : ℕ) &&& 4) = 4 from rfl,
        show (if (0 : ℕ) ≠ 0 then W / 2 else (0 : ℚ)) = 0 from by norm_num,
        show (if (1 : ℕ) ≠ 0 then W / 2 else (0 : ℚ)) = W / 2 from by norm_num,
        show (if (2 : ℕ) ≠ 0 then W / 2 else (0 : ℚ)) = W / 2 from by norm_num,
        show (if (4 : ℕ) ≠ 0 then W / 2 else (0 : ℚ)) = W / 2 from by norm_num,
        add_zero]
      split_ifs with hA hB hC <;> simp <;>
        (try constructor) <;>
        (intros
         try casesm* _ ∧ _
         repeat' apply And.intro
         all_goals linarith)

lemma indexBits_bits (p O : Point) (W : ℚ) :
    (OccupancyOctoNode.indexBits p O W &&& 1 ≠ 0 ↔ O.x + W / 2 ≤ p.x) ∧
    (OccupancyOctoNode.indexBits p O W &&& 2 ≠ 0 ↔ O.y + W / 2 ≤ p.y) ∧
    (OccupancyOctoNode.indexBits p O W &&& 4 ≠ 0 ↔ O.z + W / 2 ≤ p.z) := by
  rw [OccupancyOctoNode.indexBits]
  split_ifs with hA hB hC <;>
    refine ⟨?_, ?_, ?_⟩ <;>
    first
      | exact iff_of_true (by decide) (by assumption)
      | exact iff_of_false (by decide) (by assumption)

lemma index_tup (p O : Point) (W : ℚ) :
    OccupancyOctoNode.index p (.tup O) W =
      if OccupancyOctoNode.contains p O W then
        .ok (OccupancyOctoNode.indexBits p O W)
      else .error .valueError := rfl

lemma update_tup_outside (n : OccupancyOctoNode) (pt : Point) (p : ℝ) (o : Point)
    (w : ℚ) (d : ℕ) (hc : OccupancyOctoNode.contains pt o w = false) :
    n.update pt p (.tup o) w (d + 1) =
      ((if n.is_leaf then n.split else (n, none)).1, some PyErr.valueError) := by
  have hs : (if n.is_leaf then n.split else (n, none)).2 = none := by
    cases hb : n.is_leaf
    · simp
    · simp [split_snd]
  rcases hp : (if n.is_leaf then n.split else (n, none)) with ⟨n1, e⟩
  have he : e = none := by rw [hp] at hs; exact hs
  subst he
  rw [OccupancyOctoNode.update, dif_neg (Nat.succ_ne_zero d), hp]
  simp [index_tup, hc]

lemma map_update_succ_typeerror (c : Point) (res : ℚ) (d : ℕ)
    (root : OccupancyOctoNode) (pt1 pt2 pt3 : ℚ) (p : ℝ) (hp : 0 < p ∧ p < 1) :
    (OccupancyOctoMap.mk c res (d + 1) root).update [pt1, pt2, pt3] p =
      (OccupancyOctoMap.mk c res (d + 1)
          ((if root.is_leaf then root.split else (root, none)).1),
        some PyErr.typeError) := by
  rw [OccupancyOctoMap.update, if_pos hp]
  rw [show (OccupancyOctoMap.mk c res (d + 1) root).max_depth = d + 1 from rfl,
    show (OccupancyOctoMap.mk c res (d + 1) root).root = root from rfl,
    update_method_succ]

/-! ### Claim theorems -/

/-- C1: on the map with center (0,0,0), resolution 2, max_depth 2 and
prior 1/2, the call `update((0.9,0.9,0.9), 0.9)` — which the spec says
succeeds — instead raises TypeError: `Map.update` passes the bound method
`self.origin` (not the tuple `self.origin()`) to the node, and
`Node.contains` subscripts it; the root has moreover already been split when
the error is raised. -/
theorem scenario_update_raises_typeerror :
    OccupancyOctoMap.init ⟨0, 0, 0⟩ 2 2 (1 / 2) =
      .ok (OccupancyOctoMap.mk ⟨0, 0, 0⟩ 2 2 (.leaf (logit (1 / 2)))) ∧
    ((OccupancyOctoMap.mk ⟨0, 0, 0⟩ 2 2 (.leaf (logit (1 / 2)))).update
        [9 / 10, 9 / 10, 9 / 10] (9 / 10)).2 = some PyErr.typeError ∧
    ((OccupancyOctoMap.mk ⟨0, 0, 0⟩ 2 2 (.leaf (logit (1 / 2)))).update
        [9 / 10, 9 / 10, 9 / 10] (9 / 10)).1.root.is_leaf = false := by
  have hinit : OccupancyOctoMap.init ⟨0, 0, 0⟩ 2 2 (1 / 2) =
      .ok (OccupancyOctoMap.mk ⟨0, 0, 0⟩ 2 2 (.leaf (logit (1 / 2)))) := by
    rw [OccupancyOctoMap.init, node_init_ok (by norm_num : (0 : ℝ) < 1 / 2)
      (by norm_num : (1 : ℝ) / 2 < 1)]
  have hupd := map_update_succ_typeerror ⟨0, 0, 0⟩ 2 1 (.leaf (logit (1 / 2)))
    (9 / 10) (9 / 10) (9 / 10) (9 / 10) ⟨by norm_num, by norm_num⟩
  refine ⟨hinit, ?_, ?_⟩
  · rw [show (2 : ℕ) = 1 + 1 from rfl, hupd]
  · rw [show (2 : ℕ) = 1 + 1 from rfl, hupd]
    rw [show (OccupancyOctoNode.leaf (logit (1 / 2))).is_leaf = true from rfl,
      if_pos rfl, split_leaf]
    rfl

/-- C3: a `Map.update` call with a 3-component point and probability in (0,1)
does not behave as claimed: for the point (5,5,5), outside the map's cube
[−2,2)³, the error raised is TypeError (from subscripting the bound method
`self.origin`), not the claimed invalid-argument ValueError — so
invalid-argument is not the only error kind `update` can raise. -/
theorem update_error_kind_typeerror_not_valueerror :
    ((OccupancyOctoMap.mk ⟨0, 0, 0⟩ 2 2 (.leaf (logit (1 / 2)))).update
        [5, 5, 5] (1 / 2)).2 = some PyErr.typeError ∧
    some PyErr.typeError ≠ some PyErr.valueError := by
  constructor
  · rw [show (2 : ℕ) = 1 + 1 from rfl,
      map_update_succ_typeerror ⟨0, 0, 0⟩ 2 1 (.leaf (logit (1 / 2)))
        5 5 5 (1 / 2) ⟨by norm_num, by norm_num⟩]
  · decide

/-- C5: for a node with origin O and width W > 0, the 8 regions with corners
`child_origin(i, O, W)` and width W/2 tile `[O, O+W)`: a point lies in region
i exactly when `index` succeeds and returns i (so regions are pairwise
disjoint and lie inside the parent cube), every contained point lies in the
region of its index (no gaps), and bit k of the index is set exactly when
the point is in the upper half along axis k. -/
theorem octant_partition (O p : Point) (W : ℚ) (hW : 0 < W) :
    (∀ i : ℕ, i < 8 →
        (OccupancyOctoNode.contains p (OccupancyOctoNode.origin i O W) (W / 2) = true ↔
          OccupancyOctoNode.index p (.tup O) W = .ok i)) ∧
    (OccupancyOctoNode.contains p O W = true →
        OccupancyOctoNode.contains p
          (OccupancyOctoNode.origin (OccupancyOctoNode.indexBits p O W) O W)
          (W / 2) = true) ∧
    (OccupancyOctoNode.indexBits p O W &&& 1 ≠ 0 ↔ O.x + W / 2 ≤ p.x) ∧
    (OccupancyOctoNode.indexBits p O W &&& 2 ≠ 0 ↔ O.y + W / 2 ≤ p.y) ∧
    (OccupancyOctoNode.indexBits p O W &&& 4 ≠ 0 ↔ O.z + W / 2 ≤ p.z) := by
  obtain ⟨hb1, hb2, hb3⟩ := indexBits_bits p O W
  refine ⟨?_, ?_, hb1, hb2, hb3⟩
  · intro i hi
    rw [region_iff O p W hW i hi, index_tup]
    by_cases hc : OccupancyOctoNode.contains p O W = true
    · rw [if_pos hc]
      constructor
      · rintro ⟨_, hidx⟩
        rw [hidx]
      · intro h
        exact ⟨hc, Except.ok.inj h⟩
    · have hcf : OccupancyOctoNode.contains p O W = false :=
        Bool.not_eq_true _ ▸ Bool.of_not_eq_true hc
      rw [if_neg (by simp [hcf])]
      constructor
      · rintro ⟨hc', _⟩
        exact absurd hc' hc
      · intro h
        cases h
  · intro hc
    exact (region_iff O p W hW (OccupancyOctoNode.indexBits p O W)
      (indexBits_lt p O W)).2 ⟨hc, rfl⟩

/-- Witness for C5 at O = (0,0,0), W = 2, p = (1/2, 3/2, 1/2). -/
theorem octant_partition_witness :
    (0 : ℚ) < 2 ∧
    ((∀ i : ℕ, i < 8 →
        (OccupancyOctoNode.contains ⟨1/2, 3/2, 1/2⟩
            (OccupancyOctoNode.origin i ⟨0, 0, 0⟩ 2) (2 / 2) = true ↔
          OccupancyOctoNode.index ⟨1/2, 3/2, 1/2⟩ (.tup ⟨0, 0, 0⟩) 2 = .ok i)) ∧
      (OccupancyOctoNode.contains ⟨1/2, 3/2, 1/2⟩ ⟨0, 0, 0⟩ 2 = true →
          OccupancyOctoNode.contains ⟨1/2, 3/2, 1/2⟩
            (OccupancyOctoNode.origin
              (OccupancyOctoNode.indexBits ⟨1/2, 3/2, 1/2⟩ ⟨0, 0, 0⟩ 2) ⟨0, 0, 0⟩ 2)
            (2 / 2) = true) ∧
      (OccupancyOctoNode.indexBits ⟨1/2, 3/2, 1/2⟩ ⟨0, 0, 0⟩ 2 &&& 1 ≠ 0 ↔
        (0 : ℚ) + 2 / 2 ≤ 1/2) ∧
      (OccupancyOctoNode.indexBits ⟨1/2, 3/2, 1/2⟩ ⟨0, 0, 0⟩ 2 &&& 2 ≠ 0 ↔
        (0 : ℚ) + 2 / 2 ≤ 3/2) ∧
      (OccupancyOctoNode.indexBits ⟨1/2, 3/2, 1/2⟩ ⟨0, 0, 0⟩ 2 &&& 4 ≠ 0 ↔
        (0 : ℚ) + 2 / 2 ≤ 1/2)) :=
  ⟨by norm_num, octant_partition ⟨0, 0, 0⟩ ⟨1/2, 3/2, 1/2⟩ 2 (by norm_num)⟩

/-- C8 counterexample: for resolution 3 and max_depth 1 the cube accepted by
`contains` has edge length 2·3⁰ = 2 while the width handed to the root is
3¹ = 3, so the claimed identity `2·resolution^(max_depth−1) =
resolution^max_depth` fails. -/
theorem radius_width_counterexample :
    2 * OccupancyOctoMap.radius (OccupancyOctoMap.mk ⟨0, 0, 0⟩ 3 1 (.leaf 0)) ≠
      OccupancyOctoMap.width (OccupancyOctoMap.mk ⟨0, 0, 0⟩ 3 1 (.leaf 0)) := by
  rw [OccupancyOctoMap.radius, OccupancyOctoMap.width]
  norm_num

/-- C8 amended: the cube accepted by `contains` (edge 2·resolution^(max_depth−1))
and the root's width (resolution^max_depth) agree exactly when the resolution
is 2; for any other positive resolution they differ. -/
theorem radius_width_iff_resolution_two (m : OccupancyOctoMap)
    (hres : 0 < m.resolution) :
    2 * m.radius = m.width ↔ m.resolution = 2 := by
  have hne : m.resolution ≠ 0 := ne_of_gt hres
  have hXne : m.resolution ^ ((m.max_depth : ℤ) - 1) ≠ 0 := zpow_ne_zero _ hne
  have hw : m.width = m.resolution ^ ((m.max_depth : ℤ) - 1) * m.resolution := by
    rw [OccupancyOctoMap.width, ← zpow_add_one₀ hne, sub_add_cancel]
  rw [hw, OccupancyOctoMap.radius]
  constructor
  · intro h
    have h2 : m.resolution ^ ((m.max_depth : ℤ) - 1) * 2 =
        m.resolution ^ ((m.max_depth : ℤ) - 1) * m.resolution := by linarith
    exact (mul_left_cancel₀ hXne h2).symm
  · intro h
    rw [h]
    ring

/-- Witness for the amended C8 on a concrete resolution-2 map. -/
theorem radius_width_iff_resolution_two_witness :
    (0 : ℚ) < (OccupancyOctoMap.mk ⟨0, 0, 0⟩ 2 2 (.leaf 0)).resolution ∧
    (2 * OccupancyOctoMap.radius (OccupancyOctoMap.mk ⟨0, 0, 0⟩ 2 2 (.leaf 0)) =
        OccupancyOctoMap.width (OccupancyOctoMap.mk ⟨0, 0, 0⟩ 2 2 (.leaf 0)) ↔
      (OccupancyOctoMap.mk ⟨0, 0, 0⟩ 2 2 (.leaf 0)).resolution = 2) :=
  ⟨by norm_num, radius_width_iff_resolution_two _ (by norm_num)⟩

/-- C2 counterexample: a direct `Node.update` call on a leaf with a point
outside the node's cube raises the containment ValueError, but the leaf has
already been split when the error is raised: the returned node is internal,
so the failing call did mutate the tree. -/
theorem node_update_valueerror_mutates :
    ((OccupancyOctoNode.leaf 0).update ⟨5, 5, 5⟩ (1 / 2) (.tup ⟨0, 0, 0⟩) 2 1).2 =
        some PyErr.valueError ∧
    ((OccupancyOctoNode.leaf 0).update ⟨5, 5, 5⟩ (1 / 2) (.tup ⟨0, 0, 0⟩) 2 1).1.is_leaf =
        false := by
  have hc : OccupancyOctoNode.contains ⟨5, 5, 5⟩ ⟨0, 0, 0⟩ 2 = false := by
    norm_num [OccupancyOctoNode.contains]
  rw [show (1 : ℕ) = 0 + 1 from rfl, update_tup_outside _ _ _ _ _ _ hc]
  refine ⟨rfl, ?_⟩
  rw [show (OccupancyOctoNode.leaf 0).is_leaf = true from rfl, if_pos rfl, split_leaf]
  rfl

/-- C2 amended: a ValueError raised by `Map.update` leaves the map exactly as
it was (its two validations run before any delegation, and delegation never
surfaces a ValueError); the atomicity claim fails only for direct
`Node.update` calls, which split a leaf before raising the containment
ValueError. -/
theorem map_update_valueerror_preserves (m : OccupancyOctoMap) (pt : List ℚ)
    (prob : ℝ) (h : (m.update pt prob).2 = some PyErr.valueError) :
    (m.update pt prob).1 = m := by
  rcases pt with _ | ⟨x, _ | ⟨y, _ | ⟨z, _ | ⟨w, rest⟩⟩⟩⟩
  · rfl
  · rfl
  · rfl
  · by_cases hp : 0 < prob ∧ prob < 1
    · exfalso
      rw [OccupancyOctoMap.update] at h
      rw [if_pos hp] at h
      rcases hru : OccupancyOctoNode.update m.root ⟨x, y, z⟩ prob .method m.width
          m.max_depth with ⟨r, e⟩
      rw [hru] at h
      cases hd : m.max_depth with
      | zero =>
        rw [hd, update_zero] at hru
        have hsnd := update_probability_snd hp.1 hp.2 m.root
        rw [hru] at hsnd
        simp only at hsnd h
        rw [hsnd] at h
        cases h
      | succ d =>
        rw [hd, update_method_succ] at hru
        have hsnd : e = some PyErr.typeError := congrArg Prod.snd hru |>.symm
        simp only at h
        rw [hsnd] at h
        cases h
    · rw [OccupancyOctoMap.update, if_neg hp]
  · rfl

/-- Witness for the amended C2: a 2-component point makes `update` fail with
ValueError and the returned map is unchanged. -/
theorem map_update_valueerror_preserves_witness :
    ((OccupancyOctoMap.mk ⟨0, 0, 0⟩ 2 2 (.leaf 0)).update [1, 2] (1 / 2)).2 =
        some PyErr.valueError ∧
    ((OccupancyOctoMap.mk ⟨0, 0, 0⟩ 2 2 (.leaf 0)).update [1, 2] (1 / 2)).1 =
        OccupancyOctoMap.mk ⟨0, 0, 0⟩ 2 2 (.leaf 0) :=
  ⟨rfl, map_update_valueerror_preserves _ _ _ rfl⟩

/-- C6: on a freshly constructed map with prior probability in (0,1),
`probability` at any point accepted by `contains` returns exactly the
prior. -/
theorem fresh_map_probability_is_prior (center : Point) (res : ℚ) (d : ℕ)
    (prior : ℝ) (h0 : 0 < prior) (h1 : prior < 1) (m : OccupancyOctoMap)
    (hm : OccupancyOctoMap.init center res d prior = .ok m) (pt : List ℚ)
    (hc : m.contains pt = .ok true) :
    m.probability pt = .ok prior := by
  rw [OccupancyOctoMap.init, node_init_ok h0 h1] at hm
  have hm' : m = OccupancyOctoMap.mk center res d (.leaf (logit prior)) :=
    (Except.ok.inj hm).symm
  subst hm'
  rcases pt with _ | ⟨x, _ | ⟨y, _ | ⟨z, _ | ⟨w, rest⟩⟩⟩⟩
  · cases hc
  · cases hc
  · cases hc
  · have hcp : OccupancyOctoMap.containsP
        (OccupancyOctoMap.mk center res d (.leaf (logit prior))) ⟨x, y, z⟩ = true := by
      have := hc
      rw [OccupancyOctoMap.contains] at this
      exact Except.ok.inj this
    rw [OccupancyOctoMap.probability, if_pos hcp]
    show Except.ok (OccupancyOctoNode.probability (.leaf (logit prior))) = .ok prior
    rw [probability_eq_sigmoid]
    show Except.ok (sigmoid (logit prior)) = .ok prior
    rw [sigmoid_logit h0 h1]
  · cases hc

/-- Witness for C6: map centered at the origin, resolution 2, depth 1,
prior 1/2; the origin is contained and reports probability 1/2. -/
theorem fresh_map_probability_is_prior_witness :
    (0 : ℝ) < 1 / 2 ∧
    (OccupancyOctoMap.mk ⟨0, 0, 0⟩ 2 1 (.leaf (logit (1 / 2)))).contains [0, 0, 0] =
        .ok true ∧
    (OccupancyOctoMap.mk ⟨0, 0, 0⟩ 2 1 (.leaf (logit (1 / 2)))).probability [0, 0, 0] =
        .ok (1 / 2) := by
  have hinit : OccupancyOctoMap.init ⟨0, 0, 0⟩ 2 1 (1 / 2) =
      .ok (OccupancyOctoMap.mk ⟨0, 0, 0⟩ 2 1 (.leaf (logit (1 / 2)))) := by
    rw [OccupancyOctoMap.init, node_init_ok (by norm_num : (0 : ℝ) < 1 / 2)
      (by norm_num : (1 : ℝ) / 2 < 1)]
  have hc : (OccupancyOctoMap.mk ⟨0, 0, 0⟩ 2 1 (.leaf (logit (1 / 2)))).contains
      [0, 0, 0] = .ok true := by
    rw [OccupancyOctoMap.contains]
    norm_num [OccupancyOctoMap.containsP, OccupancyOctoMap.radius]
  exact ⟨by norm_num, hc,
    fresh_map_probability_is_prior ⟨0, 0, 0⟩ 2 1 (1 / 2) (by norm_num) (by norm_num)
      _ hinit [0, 0, 0] hc⟩

/-- C9 counterexample: constructing a map with prior_prob exactly 0.0 does
not succeed: `math.log(0.0)` raises ValueError (math domain error); with
prior_prob exactly 1.0 the division `1/(1−1)` raises ZeroDivisionError. -/
theorem construct_prior_zero_one_raises :
    OccupancyOctoMap.init ⟨0, 0, 0⟩ 2 2 0 = .error PyErr.valueError ∧
    OccupancyOctoMap.init ⟨0, 0, 0⟩ 2 2 1 = .error PyErr.zeroDivisionError := by
  constructor
  · rw [OccupancyOctoMap.init, OccupancyOctoNode.init, if_neg (by norm_num),
      if_pos (by norm_num)]
  · rw [OccupancyOctoMap.init, OccupancyOctoNode.init, if_pos (by norm_num)]

/-- C9 amended: for every center, resolution and depth, construction with
prior 0.0 raises ValueError and with prior 1.0 raises ZeroDivisionError (no
infinite log-odds root is produced), while `update` rejects the same values
with its invalid-argument check before touching the tree. -/
theorem construct_prior_extremes_error (center : Point) (res : ℚ) (d : ℕ)
    (m : OccupancyOctoMap) (x y z : ℚ) :
    OccupancyOctoMap.init center res d 0 = .error PyErr.valueError ∧
    OccupancyOctoMap.init center res d 1 = .error PyErr.zeroDivisionError ∧
    (OccupancyOctoMap.update m [x, y, z] 0).2 = some PyErr.valueError ∧
    (OccupancyOctoMap.update m [x, y, z] 1).2 = some PyErr.valueError ∧
    (OccupancyOctoMap.update m [x, y, z] 0).1 = m ∧
    (OccupancyOctoMap.update m [x, y, z] 1).1 = m := by
  refine ⟨?_, ?_, ?_, ?_, ?_, ?_⟩
  · rw [OccupancyOctoMap.init, OccupancyOctoNode.init, if_neg (by norm_num),
      if_pos (by norm_num)]
  · rw [OccupancyOctoMap.init, OccupancyOctoNode.init, if_pos (by norm_num)]
  · rw [OccupancyOctoMap.update, if_neg (by norm_num)]
  · rw [OccupancyOctoMap.update, if_neg (by norm_num)]
  · rw [OccupancyOctoMap.update, if_neg (by norm_num)]
  · rw [OccupancyOctoMap.update, if_neg (by norm_num)]

/-- C7: `split()` on a leaf node creates exactly 8 children, each initialized
so that its probability equals the parent's probability at the moment of the
split; `split()` on an internal node is a no-op, so calling it twice yields
exactly the same 8 children as calling it once. -/
theorem split_eight_children_idempotent (lo : ℝ) :
    ∃ c : OccupancyOctoNode,
      OccupancyOctoNode.split (.leaf lo) = (.internal lo c c c c c c c c, none) ∧
      c.probability = OccupancyOctoNode.probability (.leaf lo) ∧
      OccupancyOctoNode.split (.internal lo c c c c c c c c) =
        (.internal lo c c c c c c c c, none) := by
  refine ⟨.leaf (logit (sigmoid lo)), split_leaf lo, ?_, rfl⟩
  have h : OccupancyOctoNode.probability (.leaf (logit (sigmoid lo))) =
      sigmoid (logit (sigmoid lo)) := rfl
  rw [h, sigmoid_logit (sigmoid_pos lo) (sigmoid_lt_one lo)]
  rfl

/-- C10: `Node.update` with remaining depth 0 performs no containment check:
for every point, origin and width (even a point outside the cube, even the
bound-method origin) it raises nothing, fuses the observation into the node's
log-odds, keeps the leaf/internal status, and the result is independent of
the point, origin and width arguments. -/
theorem update_depth_zero_ignores_geometry (n : OccupancyOctoNode) (prob : ℝ)
    (h0 : 0 < prob) (h1 : prob < 1) (pt pt' : Point) (orig orig' : OriginArg)
    (w w' : ℚ) :
    (n.update pt prob orig w 0).2 = none ∧
    (n.update pt prob orig w 0).1.log_odds = n.log_odds + logit prob ∧
    (n.update pt prob orig w 0).1.is_leaf = n.is_leaf ∧
    n.update pt prob orig w 0 = n.update pt' prob orig' w' 0 := by
  rw [update_zero, update_zero]
  exact ⟨update_probability_snd h0 h1 n, update_probability_log_odds h0 h1 n,
    update_probability_is_leaf h0 h1 n, rfl⟩

/-- Witness for C10 at a concrete node, probability 1/2, and two wildly
different geometry arguments (one point far outside `[0,1)³`). -/
theorem update_depth_zero_ignores_geometry_witness :
    (0 : ℝ) < 1 / 2 ∧ (1 : ℝ) / 2 < 1 ∧
    (((OccupancyOctoNode.leaf 0).update ⟨9, 9, 9⟩ (1 / 2) (.tup ⟨0, 0, 0⟩) 1 0).2 = none ∧
      ((OccupancyOctoNode.leaf 0).update ⟨9, 9, 9⟩ (1 / 2) (.tup ⟨0, 0, 0⟩) 1 0).1.log_odds =
        (OccupancyOctoNode.leaf 0).log_odds + logit (1 / 2) ∧
      ((OccupancyOctoNode.leaf 0).update ⟨9, 9, 9⟩ (1 / 2) (.tup ⟨0, 0, 0⟩) 1 0).1.is_leaf =
        (OccupancyOctoNode.leaf 0).is_leaf ∧
      (OccupancyOctoNode.leaf 0).update ⟨9, 9, 9⟩ (1 / 2) (.tup ⟨0, 0, 0⟩) 1 0 =
        (OccupancyOctoNode.leaf 0).update ⟨0, 0, 0⟩ (1 / 2) .method 5 0) :=
  ⟨by norm_num, by norm_num,
    update_depth_zero_ignores_geometry (.leaf 0) (1 / 2) (by norm_num) (by norm_num)
      ⟨9, 9, 9⟩ ⟨0, 0, 0⟩ (.tup ⟨0, 0, 0⟩) .method 1 5⟩

/-- C4: starting from a node constructed with a prior in (0,1), two
sequential depth-0 updates with probabilities p1 then p2 yield a leaf whose
probability is `sigmoid (logit prior + logit p1 + logit p2)`, raise nothing,
and the result is the same with p2 applied before p1. -/
theorem logodds_additivity_commutative (prior p1 p2 : ℝ)
    (hpr0 : 0 < prior) (hpr1 : prior < 1) (h10 : 0 < p1) (h11 : p1 < 1)
    (h20 : 0 < p2) (h21 : p2 < 1) (n0 : OccupancyOctoNode)
    (hn : OccupancyOctoNode.init prior = .ok n0) (pt : Point) (orig : OriginArg)
    (w : ℚ) :
    ((n0.update pt p1 orig w 0).1.update pt p2 orig w 0).1.probability =
        sigmoid (logit prior + logit p1 + logit p2) ∧
    ((n0.update pt p1 orig w 0).1.update pt p2 orig w 0).2 = none ∧
    ((n0.update pt p2 orig w 0).1.update pt p1 orig w 0).1.probability =
        ((n0.update pt p1 orig w 0).1.update pt p2 orig w 0).1.probability := by
  have hinit := node_init_ok hpr0 hpr1
  rw [hn] at hinit
  have hn0 : n0 = .leaf (logit prior) := Except.ok.inj hinit
  subst hn0
  simp only [update_zero, update_probability_leaf h10 h11,
    update_probability_leaf h20 h21]
  refine ⟨rfl, trivial, ?_⟩
  have hcomm : logit prior + logit p2 + logit p1 = logit prior + logit p1 + logit p2 := by
    ring
  show sigmoid (logit prior + logit p2 + logit p1) =
    sigmoid (logit prior + logit p1 + logit p2)
  rw [hcomm]

/-- Witness for C4 with prior = p1 = p2 = 1/2 at a concrete point. -/
theorem logodds_additivity_commutative_witness :
    (0 : ℝ) < 1 / 2 ∧
    ((((OccupancyOctoNode.leaf (logit (1 / 2))).update ⟨0, 0, 0⟩ (1 / 2) .method 1 0).1.update
        ⟨0, 0, 0⟩ (1 / 2) .method 1 0).1.probability =
      sigmoid (logit (1 / 2) + logit (1 / 2) + logit (1 / 2))) :=
  ⟨by norm_num,
    (logodds_additivity_commutative (1 / 2) (1 / 2) (1 / 2) (by norm_num) (by norm_num)
      (by norm_num) (by norm_num) (by norm_num) (by norm_num)
      (.leaf (logit (1 / 2))) (node_init_ok (by norm_num) (by norm_num))
      ⟨0, 0, 0⟩ .method 1).1⟩

end Octomap
